import Mathlib

/-!
Shallow embedding of the DynamicContextLoader repository
(`dcl_function_calling.py` — "Mode A", and `dcl_mcp.py` — "Mode B").

Python dictionaries are embedded as association lists with Python `dict`
semantics: `dictGet` is `d.get(k)` and `dictSet` is `d[k] = v` (replace the
existing entry in place or append a fresh one at the end).  Mutable module
globals (`TOOL_REGISTRY`, `active_tools`, `LOADER_STATE`, `MCP_SERVER_MANAGERS`,
`SERVER_BRIEFS`) become explicit state records threaded through the functions.
The external LLM completion call is an opaque input, modelled by the outcome
the surrounding `try`/`except` code distinguishes.
-/

namespace DCL

/-- `d.get(k)` on a Python dict embedded as an association list. -/
def dictGet {α : Type} : List (String × α) → String → Option α
  | [], _ => none
  | p :: r, n => if p.1 = n then some p.2 else dictGet r n

/-- `d[k] = v` on a Python dict: replace the entry for the key in place if it
exists, otherwise append a new entry (insertion order semantics). -/
def dictSet {α : Type} : List (String × α) → String → α → List (String × α)
  | [], n, v => [(n, v)]
  | p :: r, n, v => if p.1 = n then (n, v) :: r else p :: dictSet r n v

/-- The part of an OpenAI-style tool definition dict the program reads:
`definition["function"]["name"]` and `definition["function"]["description"]`.
The parameter schema is carried around by the source but never inspected by
the registry, the loader, or dispatch, so it is not modelled. -/
structure ToolDef where
  name : String
  description : String
deriving Repr, DecidableEq

/-- `Tool` of `dcl_function_calling.py`: a definition plus an execution
callable.  `Tool.__init__` registers the tool in `TOOL_REGISTRY` keyed by
`definition["function"]["name"]`. -/
structure ToolA where
  definition : ToolDef
  function : String → String

/-- Registration step performed by `Tool.__init__` (Mode A):
`TOOL_REGISTRY[definition["function"]["name"]] = self`. -/
def registerToolA (registry : List (String × ToolA)) (t : ToolA) :
    List (String × ToolA) :=
  dictSet registry t.definition.name t

/-- The mutable module state of `dcl_function_calling.py`:
`TOOL_REGISTRY` and `active_tools`. -/
structure StateA where
  registry : List (String × ToolA)
  active_tools : List ToolDef

/-- A Python value passed as the `tool_names` argument of the Mode A loader:
either a list of strings, or anything that fails `isinstance(tool_names, list)`. -/
inductive PyArg where
  | list (names : List String)
  | nonList
deriving Repr, DecidableEq

/-- Accumulator of the activation loop in Mode A `loader_execute`. -/
structure LoopAccA where
  activated : List String
  failed : List String
  errors : List String
  active_tools : List ToolDef

/-- One iteration of the `for name in tool_names` loop of Mode A
`loader_execute` (src/dcl_function_calling.py lines 138-150).  Note that
`active_tool_names` is the snapshot computed once before the loop. -/
def loaderStepA (briefs : List (String × String)) (registry : List (String × ToolA))
    (active_tool_names : List String) (acc : LoopAccA) (name : String) : LoopAccA :=
  if name ∈ active_tool_names then
    { acc with errors := acc.errors ++ [name ++ " already loaded."] }
  else if (dictGet briefs name).isNone then
    { acc with failed := acc.failed ++ [name] }
  else
    match dictGet registry name with
    | some tool =>
        { acc with
          active_tools := acc.active_tools ++ [tool.definition],
          activated := acc.activated ++ [name] }
    | none => { acc with failed := acc.failed ++ [name] }

/-- The whole activation loop of Mode A `loader_execute`, starting from the
current global `active_tools` list. -/
def loaderLoopA (briefs : List (String × String)) (registry : List (String × ToolA))
    (active_tool_names : List String) (active0 : List ToolDef)
    (tool_names : List String) : LoopAccA :=
  tool_names.foldl (loaderStepA briefs registry active_tool_names)
    ⟨[], [], [], active0⟩

/-- Response string assembled by Mode A `loader_execute`
(src/dcl_function_calling.py lines 151-161). -/
def loaderResponseA (acc : LoopAccA) : String :=
  let response :=
    if acc.activated.isEmpty then "No tools activated."
    else "Activated tools: " ++ String.intercalate ", " acc.activated ++ "."
  let response :=
    if acc.failed.isEmpty then response
    else response ++ " Failed to activate: " ++ String.intercalate ", " acc.failed ++ "."
  let response := response ++ " They are now available for use in the next message."
  if acc.errors.isEmpty then response
  else response ++ "Errors: " ++ String.intercalate ", " acc.errors

/-- Mode A `loader_execute` (src/dcl_function_calling.py lines 129-161).
`briefs` is the dict captured by the closure in `create_loader_tool`;
the registry and `active_tools` live in the module state. -/
def loaderExecuteA (briefs : List (String × String)) (st : StateA) (arg : PyArg) :
    String × StateA :=
  match arg with
  | .nonList => ("Error: tool_names must be a list of strings.", st)
  | .list tool_names =>
      let active_tool_names := st.active_tools.map ToolDef.name
      let acc := loaderLoopA briefs st.registry active_tool_names st.active_tools tool_names
      (loaderResponseA acc, { st with active_tools := acc.active_tools })

/-- Outcome of the LiteLLM completion call plus response handling in Mode A
`generate_briefs`: reading the content can raise, the content can be falsy,
`json.loads` can raise, or a JSON object is parsed. -/
inductive LLMOutcome where
  | accessError
  | emptyContent
  | parseError
  | parsed (m : List (String × String))
deriving Repr, DecidableEq

/-- `desc[:100] + "..." if len(desc) > 100 else desc`. -/
def truncatedBrief (desc : String) : String :=
  if desc.length > 100 then desc.take 100 ++ "..." else desc

/-- The `except` fallback loop of Mode A `generate_briefs`
(src/dcl_function_calling.py lines 96-104). -/
def briefsFallbackA (registry : List (String × ToolA)) (tools_list : List String) :
    List (String × String) :=
  tools_list.foldl (fun briefs tool_name =>
    match dictGet registry tool_name with
    | some tool => dictSet briefs tool_name (truncatedBrief tool.definition.description)
    | none => briefs) []

/-- Mode A `generate_briefs` (src/dcl_function_calling.py lines 39-104).
When the content is truthy and parses, the parsed object is returned as is;
when reading or parsing raises, the truncation fallback is returned; when the
content is falsy the Python function falls off its end and returns `None`,
embedded as `none`. -/
def generate_briefs (registry : List (String × ToolA)) (tools_list : List String)
    (resp : LLMOutcome) : Option (List (String × String)) :=
  if tools_list.isEmpty then some []
  else
    let tool_definitions :=
      tools_list.filterMap (fun n => (dictGet registry n).map ToolA.definition)
    if tool_definitions.isEmpty then some []
    else
      match resp with
      | .parsed m => some m
      | .emptyContent => none
      | .accessError => some (briefsFallbackA registry tools_list)
      | .parseError => some (briefsFallbackA registry tools_list)

/-- Dispatch of a single tool call in Mode A `main`
(src/dcl_function_calling.py lines 349-379).  `loaderArg` is the value of
`json.loads(args).get("tool_names", [])`; `rawArgs` stands for the keyword
payload handed to an ordinary tool.  Returns the tool-result content appended
to the conversation, if any, together with the new module state. -/
def dispatchA (briefs : List (String × String)) (st : StateA)
    (funcName : String) (loaderArg : PyArg) (rawArgs : String) :
    Option String × StateA :=
  if funcName = "loader" then
    let r := loaderExecuteA briefs st loaderArg
    (some r.1, r.2)
  else
    match dictGet st.registry funcName with
    | some tool => (some (tool.function rawArgs), st)
    | none => (none, st)

/-- `Tool` of `dcl_mcp.py`: a definition, an execution callable (for MCP tools
a proxy closure through the server session, opaque to this development), and
the owning server name (`None` for the loader itself). -/
structure ToolB where
  definition : ToolDef
  function : String → String
  server : Option String

/-- One entry of `LOADER_STATE["servers"]`. -/
structure ServerState where
  descriptions_loaded : Bool
  summaries_loaded : Bool
  active_tools : List String
deriving Repr, DecidableEq

/-- One entry of `SERVER_BRIEFS`: the dict returned by Mode B
`generate_briefs`. -/
structure ServerBrief where
  server_summary : String
  tool_briefs : List (String × String)
deriving Repr, DecidableEq

/-- The mutable module state of `dcl_mcp.py`: `TOOL_REGISTRY`, `active_tools`,
`LOADER_STATE["servers"]`, `MCP_SERVER_MANAGERS` (modelled by the tool names
each manager enumerated) and `SERVER_BRIEFS`. -/
structure StateB where
  registry : List (String × ToolB)
  active_tools : List ToolDef
  servers : List (String × ServerState)
  managers : List (String × List String)
  serverBriefs : List (String × ServerBrief)

/-- `LOADER_STATE["servers"][s]["summaries_loaded"] = True`: in-place field
update of the entry for key `s` (the caller has checked the key is present). -/
def setSummariesLoaded (servers : List (String × ServerState)) (s : String) :
    List (String × ServerState) :=
  servers.map (fun p => if p.1 = s then (p.1, { p.2 with summaries_loaded := true }) else p)

/-- The `for s in servers` loop of the `load_tool_summaries` action
(src/dcl_mcp.py lines 305-314), including its early error return.  Note the
source appends `s` to `activated` before checking that `s` is recognized. -/
def summariesLoop (st : StateB) (activated : List String) :
    List String → String × StateB
  | [] =>
      ((if activated.isEmpty then "No tool summaries loaded."
        else "Loaded tool summaries for servers: " ++ String.intercalate ", " activated ++ "."),
       st)
  | s :: rest =>
      if (dictGet st.servers s).isNone then
        ("Error: server " ++ s ++ " not recognized", st)
      else
        summariesLoop { st with servers := setSummariesLoaded st.servers s }
          (activated ++ [s]) rest

/-- `LOADER_STATE["servers"][server]["active_tools"].append(name)`. -/
def appendServerActiveTool (servers : List (String × ServerState)) (s name : String) :
    List (String × ServerState) :=
  servers.map (fun p =>
    if p.1 = s then (p.1, { p.2 with active_tools := p.2.active_tools ++ [name] }) else p)

/-- Accumulator of the activation loop in the `load_tools` action. -/
structure LoopAccB where
  activated : List String
  failed : List String
  errors : List String
  active_tools : List ToolDef
  servers : List (String × ServerState)

/-- One iteration of the `for name in tools` loop of the `load_tools` action
(src/dcl_mcp.py lines 333-344).  As in Mode A, `active_tool_names` is the
snapshot computed once before the loop. -/
def loadToolsStep (registry : List (String × ToolB)) (server : String)
    (active_tool_names : List String) (acc : LoopAccB) (name : String) : LoopAccB :=
  if name ∈ active_tool_names then
    { acc with errors := acc.errors ++ [name ++ " already loaded."] }
  else
    match dictGet registry name with
    | some tool_info =>
        if tool_info.server = some server then
          { acc with
            active_tools := acc.active_tools ++ [tool_info.definition],
            servers := appendServerActiveTool acc.servers server name,
            activated := acc.activated ++ [name] }
        else { acc with failed := acc.failed ++ [name] }
    | none => { acc with failed := acc.failed ++ [name] }

/-- The whole activation loop of the `load_tools` action. -/
def loaderLoopB (registry : List (String × ToolB)) (server : String)
    (active_tool_names : List String) (active0 : List ToolDef)
    (servers0 : List (String × ServerState)) (tools : List String) : LoopAccB :=
  tools.foldl (loadToolsStep registry server active_tool_names)
    ⟨[], [], [], active0, servers0⟩

/-- Response string assembled by the `load_tools` action
(src/dcl_mcp.py lines 345-354). -/
def loadToolsResponseB (server : String) (acc : LoopAccB) : String :=
  let response :=
    if acc.activated.isEmpty then "No tools activated from " ++ server ++ "."
    else "Activated tools from " ++ server ++ ": " ++
      String.intercalate ", " acc.activated ++ "."
  let response :=
    if acc.failed.isEmpty then response
    else response ++ " Failed: " ++ String.intercalate ", " acc.failed ++ "."
  if acc.errors.isEmpty then response
  else response ++ " Errors: " ++ String.intercalate ", " acc.errors

/-- Tail of the `load_tools` action once all guards have passed
(src/dcl_mcp.py lines 326-354). -/
def loadToolsFinish (st : StateB) (server : String) (tools : List String) :
    String × StateB :=
  let acc := loaderLoopB st.registry server (st.active_tools.map ToolDef.name)
    st.active_tools st.servers tools
  (loadToolsResponseB server acc,
   { st with active_tools := acc.active_tools, servers := acc.servers })

/-- Mode B `loader_execute` (src/dcl_mcp.py lines 296-356).  `servers`,
`tools` and `server` are the keyword arguments (default `None`); Python
falsiness of a missing/empty list or empty string is spelled out. -/
def loaderExecuteB (st : StateB) (action : String) (servers : Option (List String))
    (tools : Option (List String)) (server : Option String) : String × StateB :=
  if action = "load_tool_summaries" then
    if servers = none ∨ servers = some [] then
      ("Error: servers list is required for load_tool_summaries action.", st)
    else
      summariesLoop st [] (servers.getD [])
  else if action = "load_tools" then
    if (tools = none ∨ tools = some []) ∨ (server = none ∨ server = some "") then
      ("Error: tools list and server are required for load_tools action.", st)
    else if (dictGet st.servers (server.getD "")).map ServerState.summaries_loaded ≠ some true then
      ("Error: Tool summaries for " ++ server.getD "" ++ " must be loaded first.", st)
    else
      match dictGet st.managers (server.getD "") with
      | none => ("Error: No manager for server " ++ server.getD "" ++ ".", st)
      | some _ => loadToolsFinish st (server.getD "") (tools.getD [])
  else
    ("Error: Invalid action. Use \x27load_tool_summaries\x27 or \x27load_tools\x27.", st)

/-- `generate_loader_description` of `dcl_mcp.py` (lines 259-274).  The Python
code indexes `LOADER_STATE["servers"][server]` directly (raising on a missing
key); here the lookup totalizes, treating a missing key as summaries not
loaded.  No claim inspects this text. -/
def generate_loader_description (serverBriefs : List (String × ServerBrief))
    (loaderServers : List (String × ServerState)) : String :=
  let servers := serverBriefs.map (fun p =>
    let info := "\x27" ++ p.1 ++ "\x27 MCP: " ++ p.2.server_summary
    if (dictGet loaderServers p.1).map ServerState.summaries_loaded = some true then
      info ++ "\n Tools summaries loaded:\n  " ++
        String.intercalate "\n" (p.2.tool_briefs.map (fun q => "- " ++ q.1 ++ ": " ++ q.2))
    else info)
  "Dynamic Tool Loader for managing MCP tools. Provides descriptions and enables activation of multiple tools by name.\n\n"
    ++ String.intercalate "\n\n" servers
    ++ "\n\nTools become available in the model context for the next interaction.\n\nUsage: Use \x27load_tool_summaries\x27 to load a server\x27s tool summaries. Once loaded, use \x27load_tools\x27 to activate specific tools. If interested in a server\x27s tools, first load summaries, then activate needed ones."

/-- `refresh_loader_tool_description` (src/dcl_mcp.py lines 277-280): rewrite
the description of the active entry named "loader" in place. -/
def refresh_loader_tool_description (st : StateB) : StateB :=
  { st with active_tools := st.active_tools.map (fun d =>
      if d.name = "loader" then
        { d with description := generate_loader_description st.serverBriefs st.servers }
      else d) }

/-- Outcome of the LiteLLM call in Mode B `generate_briefs`: in that function
an exception anywhere in the `try` block is swallowed by `pass` and falsy
content falls through, so every non-parsed outcome reaches the fallback that
follows the `try`/`except`. -/
inductive LLMOutcomeB where
  | failure
  | parsed (b : ServerBrief)

/-- `TOOL_REGISTRY.get(tool_name)` as performed by the fallback loop of Mode B
`generate_briefs` (src/dcl_mcp.py lines 251-255): there `tool_name` iterates
over the MCP tool *descriptor objects* of `tools_list`, while `TOOL_REGISTRY`
is keyed by name strings, so the lookup always misses. -/
def dictGetByDescriptor (_registry : List (String × ToolB)) (_descriptorName : String) :
    Option ToolB :=
  none

/-- Mode B `generate_briefs` (src/dcl_mcp.py lines 185-256).  `tools_list` is
the list of MCP tool descriptors, represented by their names; only `t.name`
is ever read from a descriptor.  The fallback loop builds `tool_briefs` with
`dictGetByDescriptor`, which never finds anything, so on failure the briefs
dict comes out empty. -/
def generate_briefsB (registry : List (String × ToolB)) (tools_list : List String)
    (mcp_server_name : String) (resp : LLMOutcomeB) : ServerBrief :=
  if tools_list.isEmpty ∨ mcp_server_name = "" then ⟨"", []⟩
  else
    let tool_definitions := tools_list.filterMap (fun t =>
      match dictGet registry t with
      | some tool_info =>
          if tool_info.server = some mcp_server_name then some tool_info.definition
          else none
      | none => none)
    if tool_definitions.isEmpty then ⟨"", []⟩
    else
      match resp with
      | .parsed b => b
      | .failure =>
          ⟨mcp_server_name ++ " MCP server provides various tools for specific tasks.",
           tools_list.foldl (fun tool_briefs t =>
             match dictGetByDescriptor registry t with
             | some tool_info =>
                 dictSet tool_briefs t (truncatedBrief tool_info.definition.description)
             | none => tool_briefs) []⟩

/-- Outcome of one provider in `load_mcp_tools`: `initialize()` raised,
`list_tools()` raised, or both succeeded enumerating the given tools. -/
inductive ProviderOutcome where
  | initFailure
  | listToolsFailure
  | success (tools : List ToolDef)
deriving Repr, DecidableEq

/-- One entry of `MCP_SERVERS` together with what happens when its manager is
initialized. -/
structure ProviderSpec where
  name : String
  outcome : ProviderOutcome
deriving Repr, DecidableEq

/-- Registration performed by `MCPServerManager.list_tools`
(src/dcl_mcp.py lines 112-131): each enumerated descriptor becomes a `Tool`
registered under its name, whose callable proxies through the session (the
proxy body is opaque here). -/
def registerProviderTools (registry : List (String × ToolB)) (server : String)
    (tools : List ToolDef) : List (String × ToolB) :=
  tools.foldl (fun r d => dictSet r d.name ⟨d, fun _ => "", some server⟩) registry

/-- `load_mcp_tools` (src/dcl_mcp.py lines 160-182): for each configured
server, initialize a manager and list its tools; any exception is caught and
the loop continues with the next server, so a failing provider registers no
tools, no manager and no loader state entry. -/
def load_mcp_tools (providers : List ProviderSpec) (st : StateB) : StateB :=
  providers.foldl (fun st p =>
    match p.outcome with
    | .initFailure => st
    | .listToolsFailure => st
    | .success tools =>
        { st with
          registry := registerProviderTools st.registry p.name tools,
          managers := dictSet st.managers p.name (tools.map ToolDef.name),
          servers := dictSet st.servers p.name ⟨true, false, []⟩ }) st

/-- The module state of `dcl_mcp.py` before `load_mcp_tools` runs. -/
def emptyStateB : StateB :=
  ⟨[], [], [], [], []⟩

/-- The parsed loader arguments `json.loads(args)` of a Mode B loader call. -/
structure LoaderArgsB where
  action : String
  servers : Option (List String)
  tools : Option (List String)
  server : Option String

/-- Dispatch of a single tool call in Mode B `main`
(src/dcl_mcp.py lines 440-476): a loader call runs `loader_execute` and then
`refresh_loader_tool_description`; any other name is looked up in
`TOOL_REGISTRY` and executed if found, with no ActiveSet consultation; an
unregistered name appends no tool message at all. -/
def dispatchB (st : StateB) (funcName : String) (la : LoaderArgsB) (rawArgs : String) :
    Option String × StateB :=
  if funcName = "loader" then
    let r := loaderExecuteB st la.action la.servers la.tools la.server
    (some r.1, refresh_loader_tool_description r.2)
  else
    match dictGet st.registry funcName with
    | some tool => (some (tool.function rawArgs), st)
    | none => (none, st)

/-! ### Dictionary lemmas -/

theorem dictGet_dictSet_self {α : Type} (r : List (String × α)) (n : String) (v : α) :
    dictGet (dictSet r n v) n = some v := by
  induction r with
  | nil => simp [dictSet, dictGet]
  | cons p r ih =>
      by_cases h : p.1 = n
      · simp [dictSet, h, dictGet]
      · simp [dictSet, h, dictGet, ih]

theorem dictGet_dictSet_ne {α : Type} (r : List (String × α)) (n m : String) (v : α)
    (h : m ≠ n) : dictGet (dictSet r n v) m = dictGet r m := by
  induction r with
  | nil => simp [dictSet, dictGet, Ne.symm h]
  | cons p r ih =>
      by_cases hp : p.1 = n
      · simp [dictSet, hp, dictGet, Ne.symm h]
      · have hset : dictSet (p :: r) n v = p :: dictSet r n v := by simp [dictSet, hp]
        rw [hset]
        by_cases hm : p.1 = m
        · simp [dictGet, hm]
        · simp [dictGet, hm, ih]

theorem dictGet_mem {α : Type} {r : List (String × α)} {n : String} {v : α}
    (h : dictGet r n = some v) : (n, v) ∈ r := by
  induction r with
  | nil => simp [dictGet] at h
  | cons p r ih =>
      obtain ⟨pk, pv⟩ := p
      by_cases hp : pk = n
      · simp [dictGet, hp] at h
        subst hp; subst h
        exact List.mem_cons_self _ _
      · simp [dictGet, hp] at h
        exact List.mem_cons_of_mem _ (ih h)

theorem isSome_dictGet_dictSet {α : Type} {r : List (String × α)} {m : String}
    (n : String) (v : α) (h : (dictGet r m).isSome) :
    (dictGet (dictSet r n v) m).isSome := by
  by_cases hm : m = n
  · subst hm; simp [dictGet_dictSet_self]
  · rwa [dictGet_dictSet_ne _ _ _ _ hm]

/-! ### C9 — ToolRegistry is last-write-wins -/

theorem foldl_registerToolA_ne (l : List ToolA) (acc : List (String × ToolA))
    (n : String) (h : ∀ u ∈ l, u.definition.name ≠ n) :
    dictGet (l.foldl registerToolA acc) n = dictGet acc n := by
  induction l generalizing acc with
  | nil => rfl
  | cons u l ih =>
      rw [List.foldl_cons, ih _ (fun w hw => h w (List.mem_cons_of_mem _ hw))]
      exact dictGet_dictSet_ne _ _ _ _
        (Ne.symm (h u (List.mem_cons_self _ _)))

/-- C9: the ToolRegistry is last-write-wins.  For every sequence of
registrations performed by `Tool.__init__` (a fold of `registerToolA` over a
list of tools), looking up a name returns the most recently registered tool
carrying that name: if the sequence splits as `l₁ ++ t :: l₂` with no tool in
`l₂` named like `t`, the lookup of `t`'s name yields `t` — in particular a
re-registration under an existing name in `l₁` is overwritten, not kept. -/
theorem C9_last_write_wins (r : List (String × ToolA)) (l₁ l₂ : List ToolA)
    (t : ToolA) (h : ∀ u ∈ l₂, u.definition.name ≠ t.definition.name) :
    dictGet ((l₁ ++ t :: l₂).foldl registerToolA r) t.definition.name = some t := by
  rw [List.foldl_append, List.foldl_cons,
    foldl_registerToolA_ne _ _ _ h]
  exact dictGet_dictSet_self _ _ _

def calcToolV1 : ToolA :=
  ⟨⟨"calculator", "first registration"⟩, fun _ => "v1"⟩

def calcToolV2 : ToolA :=
  ⟨⟨"calculator", "second registration"⟩, fun _ => "v2"⟩

def weatherToolA : ToolA :=
  ⟨⟨"get_weather", "Gets the current weather for a location."⟩, fun _ => "sunny"⟩

/-- Witness for C9: registering `calculator` twice (with `get_weather` in
between and after) makes lookup return the second `calculator` binding. -/
theorem C9_witness :
    ((dictGet ([calcToolV1, calcToolV2, weatherToolA].foldl registerToolA [])
        "calculator").map (fun u => u.definition.description) = some "second registration") ∧
    (∀ u ∈ [weatherToolA], u.definition.name ≠ calcToolV2.definition.name) := by
  have hhyp : ∀ u ∈ [weatherToolA], u.definition.name ≠ calcToolV2.definition.name := by
    intro u hu
    rw [List.mem_singleton] at hu
    subst hu
    decide
  have h2 : dictGet ([calcToolV1, calcToolV2, weatherToolA].foldl registerToolA [])
      "calculator" = some calcToolV2 :=
    C9_last_write_wins [] [calcToolV1] [weatherToolA] calcToolV2 hhyp
  refine ⟨?_, hhyp⟩
  rw [h2]
  rfl

/-! ### C10 — Mode A loader rejects a non-list argument without mutation -/

/-- C10: for every argument value that is not a list, Mode A `loader_execute`
returns exactly the text "Error: tool_names must be a list of strings." and
leaves the module state — `active_tools` and `TOOL_REGISTRY` — unchanged. -/
theorem C10_nonlist_argument (briefs : List (String × String)) (st : StateA) :
    loaderExecuteA briefs st PyArg.nonList
      = ("Error: tool_names must be a list of strings.", st) := rfl

/-! ### C1 — duplicate names in one activation call -/

def loaderDefA : ToolDef :=
  ⟨"loader", "Dynamic Tool Loader"⟩

def calculatorToolA : ToolA :=
  ⟨⟨"calculator", "Performs mathematical calculations."⟩, fun _ => "105"⟩

def stC1A : StateA :=
  ⟨[("calculator", calculatorToolA)], [loaderDefA]⟩

def briefsC1 : List (String × String) :=
  [("calculator", "Performs mathematical calculations.")]

def getMeToolB : ToolB :=
  ⟨⟨"get_me", "Get details of the authenticated GitHub user."⟩, fun _ => "", some "github"⟩

def stC1B : StateB :=
  ⟨[("get_me", getMeToolB)], [loaderDefA],
   [("github", ⟨true, true, []⟩)], [("github", ["get_me"])], []⟩

/-- C1 fails on the code: in both modes the activation loop checks duplicates
against a snapshot of the active names taken once before the loop, so a valid
not-yet-active name listed twice is appended to ActiveSet twice and reported
as activated twice, with no duplicate notice — `["calculator","calculator"]`
yields ActiveSet `[loader, calculator, calculator]` in Mode A, and
`["get_me","get_me"]` yields `[loader, get_me, get_me]` (and a server
`active_tools` list `["get_me","get_me"]`) in Mode B. -/
theorem C1_duplicate_activation :
    ((loaderExecuteA briefsC1 stC1A
        (PyArg.list ["calculator", "calculator"])).2.active_tools.map ToolDef.name
      = ["loader", "calculator", "calculator"]) ∧
    ((loaderExecuteA briefsC1 stC1A (PyArg.list ["calculator", "calculator"])).1
      = "Activated tools: calculator, calculator. They are now available for use in the next message.") ∧
    ((loaderExecuteB stC1B "load_tools" none (some ["get_me", "get_me"])
        (some "github")).2.active_tools.map ToolDef.name
      = ["loader", "get_me", "get_me"]) ∧
    ((dictGet (loaderExecuteB stC1B "load_tools" none (some ["get_me", "get_me"])
        (some "github")).2.servers "github").map ServerState.active_tools
      = some ["get_me", "get_me"]) := by
  refine ⟨rfl, rfl, rfl, rfl⟩

/-! ### C4 — brief generation must cover every requested name -/

def bashToolA : ToolA :=
  ⟨⟨"bash", "Executes bash commands with security checks and timeout."⟩, fun _ => ""⟩

def readToolA : ToolA :=
  ⟨⟨"read", "Reads files from the local filesystem."⟩, fun _ => ""⟩

def regC4 : List (String × ToolA) :=
  [("bash", bashToolA), ("read", readToolA)]

def getFileToolB : ToolB :=
  ⟨⟨"get_file", "Get a Figma file by key."⟩, fun _ => "", some "figma"⟩

def regC4B : List (String × ToolB) :=
  [("get_file", getFileToolB)]

/-- C4 fails on the code.  With two registered tools requested: on empty
summarizer content Mode A `generate_briefs` falls off its end and returns
`None` — no mapping at all, contradicting its own docstring; on parsable but
partial output it returns the partial dict as is, with no entry for the
missing name; and in Mode B the truncation fallback looks the descriptor
objects of `tools_list` up in the name-keyed `TOOL_REGISTRY`, always missing,
so on unparsable output `tool_briefs` comes out empty although the requested
tool is registered. -/
theorem C4_briefs_fallback_bug :
    (generate_briefs regC4 ["bash", "read"] LLMOutcome.emptyContent = none) ∧
    (generate_briefs regC4 ["bash", "read"]
        (LLMOutcome.parsed [("bash", "Runs shell commands.")])
      = some [("bash", "Runs shell commands.")]) ∧
    ((dictGet regC4 "read").isSome = true) ∧
    (generate_briefsB regC4B ["get_file"] "figma" LLMOutcomeB.failure
      = ⟨"figma MCP server provides various tools for specific tasks.", []⟩) ∧
    ((dictGet regC4B "get_file").isSome = true) :=
  ⟨rfl, rfl, rfl, rfl, rfl⟩

/-! ### C2 — dispatch and the ActiveSet -/

/-- C2 fails on the code: `calculator` is registered but not in the ActiveSet
(which holds only the loader), yet dispatch resolves it via `TOOL_REGISTRY`
and executes it, returning the tool's own output instead of rejecting the
call with an explanatory text. -/
theorem C2_counterexample :
    ("calculator" ∉ stC1A.active_tools.map ToolDef.name) ∧
    ((dictGet stC1A.registry "calculator").isSome = true) ∧
    ((dispatchA briefsC1 stC1A "calculator" PyArg.nonList "15 * 7").1 = some "105") :=
  ⟨by decide, rfl, rfl⟩

/-- C2 amended: dispatch never consults the ActiveSet.  In both modes, a tool
call whose name is not "loader" is resolved through the ToolRegistry alone —
it is executed whenever the name is registered, active or not, and produces
no tool result at all (rather than an explanatory rejection) when the name is
unregistered; the module state is left unchanged. -/
theorem C2_dispatch_registry_only :
    (∀ (briefs : List (String × String)) (st : StateA) (funcName : String)
        (la : PyArg) (rawArgs : String), funcName ≠ "loader" →
      (dispatchA briefs st funcName la rawArgs).2 = st ∧
      (dispatchA briefs st funcName la rawArgs).1
        = (dictGet st.registry funcName).map (fun t => t.function rawArgs)) ∧
    (∀ (st : StateB) (funcName : String) (la : LoaderArgsB) (rawArgs : String),
        funcName ≠ "loader" →
      (dispatchB st funcName la rawArgs).2 = st ∧
      (dispatchB st funcName la rawArgs).1
        = (dictGet st.registry funcName).map (fun t => t.function rawArgs)) := by
  constructor
  · intro briefs st funcName la rawArgs h
    unfold dispatchA
    rw [if_neg h]
    cases hc : dictGet st.registry funcName <;> simp [hc]
  · intro st funcName la rawArgs h
    unfold dispatchB
    rw [if_neg h]
    cases hc : dictGet st.registry funcName <;> simp [hc]

/-- Witness for the amended C2 at a concrete input: dispatching the inactive
but registered `calculator` leaves the state unchanged and executes it. -/
theorem C2_witness :
    ((dispatchA briefsC1 stC1A "calculator" PyArg.nonList "15 * 7").2 = stC1A) ∧
    ((dispatchA briefsC1 stC1A "calculator" PyArg.nonList "15 * 7").1 = some "105") := by
  have h := C2_dispatch_registry_only.1 briefsC1 stC1A "calculator" PyArg.nonList "15 * 7"
    (by decide)
  refine ⟨h.1, ?_⟩
  rw [h.2]
  rfl

/-! ### C5 — load_tools before load_summaries -/

def stC5 : StateB :=
  ⟨[], [loaderDefA], [("github", ⟨true, false, []⟩)], [("github", [])], []⟩

/-- C5 fails as stated: a `load_tools` call for server `github`, whose
`summaries_loaded` flag is false, but with an empty `tools` list, fails with
the required-arguments error rather than the "summaries must be loaded first"
error (the argument guard precedes the summaries guard). -/
theorem C5_counterexample :
    ((dictGet stC5.servers "github").map ServerState.summaries_loaded = some false) ∧
    (loaderExecuteB stC5 "load_tools" none (some []) (some "github")
      = ("Error: tools list and server are required for load_tools action.", stC5)) ∧
    ("Error: tools list and server are required for load_tools action."
      ≠ "Error: Tool summaries for github must be loaded first.") :=
  ⟨rfl, rfl, by decide⟩

/-- C5 amended: a `load_tools` call with a nonempty tools list and a nonempty
server name, when the server's summaries are not loaded (flag false, or the
server unknown), fails with the "summaries must be loaded first" error and
returns the state unchanged; a call whose tools list is missing or empty
fails with the required-arguments error instead, also with no mutation. -/
theorem C5_summaries_first :
    (∀ (st : StateB) (srvs : Option (List String)) (ts : List String) (sv : String),
      ts ≠ [] → sv ≠ "" →
      (dictGet st.servers sv).map ServerState.summaries_loaded ≠ some true →
      loaderExecuteB st "load_tools" srvs (some ts) (some sv)
        = ("Error: Tool summaries for " ++ sv ++ " must be loaded first.", st)) ∧
    (∀ (st : StateB) (srvs : Option (List String)) (sv : Option String),
      loaderExecuteB st "load_tools" srvs (some []) sv
        = ("Error: tools list and server are required for load_tools action.", st)) ∧
    (∀ (st : StateB) (srvs : Option (List String)) (sv : Option String),
      loaderExecuteB st "load_tools" srvs none sv
        = ("Error: tools list and server are required for load_tools action.", st)) := by
  refine ⟨?_, ?_, ?_⟩
  · intro st srvs ts sv hts hsv hsum
    unfold loaderExecuteB
    rw [if_neg (by decide : ¬("load_tools" = "load_tool_summaries")),
      if_pos (rfl : ("load_tools" : String) = "load_tools"),
      if_neg (by simp [hts, hsv]),
      if_pos (by simpa using hsum)]
    rfl
  · intro st srvs sv
    unfold loaderExecuteB
    rw [if_neg (by decide : ¬("load_tools" = "load_tool_summaries")),
      if_pos (rfl : ("load_tools" : String) = "load_tools"),
      if_pos (by simp)]
  · intro st srvs sv
    unfold loaderExecuteB
    rw [if_neg (by decide : ¬("load_tools" = "load_tool_summaries")),
      if_pos (rfl : ("load_tools" : String) = "load_tools"),
      if_pos (by simp)]

/-- Witness for the amended C5: on `stC5` (github registered, summaries not
loaded) a nonempty `load_tools` call fails with the summaries-first error and
no state change. -/
theorem C5_witness :
    (loaderExecuteB stC5 "load_tools" none (some ["get_me"]) (some "github")
      = ("Error: Tool summaries for github must be loaded first.", stC5)) := by
  have h := C5_summaries_first.1 stC5 none ["get_me"] "github"
    (by decide) (by decide) (by decide)
  exact h

/-! ### C3 — load_tool_summaries with an unknown server -/

theorem dictGet_setSummariesLoaded (sv : List (String × ServerState)) (s x : String) :
    dictGet (setSummariesLoaded sv s) x =
      if x = s then (dictGet sv s).map (fun q => { q with summaries_loaded := true })
      else dictGet sv x := by
  induction sv with
  | nil => by_cases h : x = s <;> simp [setSummariesLoaded, dictGet, h]
  | cons p sv ih =>
      simp only [setSummariesLoaded] at ih ⊢
      by_cases hps : p.1 = s <;> by_cases hxs : x = s
      · subst hxs
        simp [dictGet, hps]
      · simp only [List.map_cons, if_pos hps, dictGet]
        have hpx : ¬(s = x) := fun hh => hxs hh.symm
        simp [hpx, hxs, ih, dictGet, hps]
      · subst hxs
        simp only [List.map_cons, if_neg hps, dictGet]
        by_cases hpx : p.1 = x
        · exact absurd hpx.symm (fun hh => hps (hh ▸ rfl))
        · simp [hpx, ih]
      · simp only [List.map_cons, if_neg hps, dictGet]
        by_cases hpx : p.1 = x <;> simp [hpx, ih, hxs]

theorem setSummariesLoaded_isSome (sv : List (String × ServerState)) (s t : String)
    (h : (dictGet sv s).isSome) : (dictGet (setSummariesLoaded sv t) s).isSome := by
  rw [dictGet_setSummariesLoaded]
  by_cases hst : s = t
  · subst hst
    simpa using h
  · simpa [hst] using h

theorem setSummariesLoaded_flag_self (sv : List (String × ServerState)) (s : String)
    (h : (dictGet sv s).isSome) :
    (dictGet (setSummariesLoaded sv s) s).map ServerState.summaries_loaded = some true := by
  rw [dictGet_setSummariesLoaded]
  obtain ⟨q, hq⟩ := Option.isSome_iff_exists.mp h
  simp [hq]

theorem setSummariesLoaded_flag_preserve (sv : List (String × ServerState)) (s t : String)
    (h : (dictGet sv s).map ServerState.summaries_loaded = some true) :
    (dictGet (setSummariesLoaded sv t) s).map ServerState.summaries_loaded = some true := by
  rw [dictGet_setSummariesLoaded]
  by_cases hst : s = t
  · subst hst
    cases hq : dictGet sv s with
    | none => rw [hq] at h; simp at h
    | some q => simp [hq]
  · simpa [hst] using h

theorem setSummariesLoaded_active_tools (sv : List (String × ServerState)) (t x : String) :
    (dictGet (setSummariesLoaded sv t) x).map ServerState.active_tools
      = (dictGet sv x).map ServerState.active_tools := by
  rw [dictGet_setSummariesLoaded]
  by_cases hxt : x = t
  · subst hxt
    cases hq : dictGet sv x <;> simp [hq]
  · simp [hxt]

theorem foldl_setSummariesLoaded_flag_preserve (pre : List String)
    (sv : List (String × ServerState)) (s : String)
    (h : (dictGet sv s).map ServerState.summaries_loaded = some true) :
    (dictGet (pre.foldl setSummariesLoaded sv) s).map ServerState.summaries_loaded
      = some true := by
  induction pre generalizing sv with
  | nil => exact h
  | cons t pre ih => exact ih _ (setSummariesLoaded_flag_preserve _ _ _ h)

theorem foldl_setSummariesLoaded_flag (pre : List String)
    (sv : List (String × ServerState)) (s : String) (hs : s ∈ pre)
    (hsome : (dictGet sv s).isSome) :
    (dictGet (pre.foldl setSummariesLoaded sv) s).map ServerState.summaries_loaded
      = some true := by
  induction pre generalizing sv with
  | nil => cases hs
  | cons t pre ih =>
      rw [List.foldl_cons]
      rcases List.mem_cons.mp hs with hst | hmem
      · subst hst
        exact foldl_setSummariesLoaded_flag_preserve _ _ _
          (setSummariesLoaded_flag_self _ _ hsome)
      · exact ih _ hmem (setSummariesLoaded_isSome _ _ _ hsome)

theorem foldl_setSummariesLoaded_notin (pre : List String)
    (sv : List (String × ServerState)) (x : String) (hx : x ∉ pre) :
    dictGet (pre.foldl setSummariesLoaded sv) x = dictGet sv x := by
  induction pre generalizing sv with
  | nil => rfl
  | cons t pre ih =>
      rw [List.foldl_cons, ih _ (fun hh => hx (List.mem_cons_of_mem _ hh)),
        dictGet_setSummariesLoaded,
        if_neg (fun hh => hx (by rw [hh]; exact List.mem_cons_self _ _))]

theorem foldl_setSummariesLoaded_active_tools (pre : List String)
    (sv : List (String × ServerState)) (x : String) :
    (dictGet (pre.foldl setSummariesLoaded sv) x).map ServerState.active_tools
      = (dictGet sv x).map ServerState.active_tools := by
  induction pre generalizing sv with
  | nil => rfl
  | cons t pre ih => rw [List.foldl_cons, ih, setSummariesLoaded_active_tools]

theorem summariesLoop_through (pre : List String) (st : StateB) (act : List String)
    (u : String) (post : List String)
    (hpre : ∀ s ∈ pre, (dictGet st.servers s).isSome)
    (hu : dictGet st.servers u = none) :
    summariesLoop st act (pre ++ u :: post)
      = ("Error: server " ++ u ++ " not recognized",
         { st with servers := pre.foldl setSummariesLoaded st.servers }) := by
  induction pre generalizing st act with
  | nil =>
      rw [List.nil_append, summariesLoop, if_pos (by simp [hu])]
      rfl
  | cons s pre ih =>
      have hs : ¬ dictGet st.servers s = none :=
        Option.isSome_iff_ne_none.mp (hpre s (List.mem_cons_self _ _))
      rw [List.cons_append, summariesLoop,
        if_neg (by simpa [Option.isNone_iff_eq_none] using hs)]
      have hu2 : dictGet (setSummariesLoaded st.servers s) u = none := by
        rw [dictGet_setSummariesLoaded]
        by_cases hus : u = s
        · subst hus
          simp [hu]
        · simp [hus, hu]
      exact ih _ _
        (fun x hx => setSummariesLoaded_isSome _ _ _ (hpre x (List.mem_cons_of_mem _ hx)))
        hu2

/-- C3 fails as stated once a recognized server precedes the unknown one:
on a state where `github` is registered with `summaries_loaded = false`,
`load_tool_summaries(["github","figma"])` returns the "server figma not
recognized" error, yet `github`'s `summaries_loaded` flag has been flipped
to true by the partially executed loop. -/
theorem C3_counterexample :
    ((loaderExecuteB stC5 "load_tool_summaries" (some ["github", "figma"]) none none).1
      = "Error: server figma not recognized") ∧
    ((dictGet (loaderExecuteB stC5 "load_tool_summaries"
        (some ["github", "figma"]) none none).2.servers "github").map
        ServerState.summaries_loaded = some true) ∧
    ((dictGet stC5.servers "github").map ServerState.summaries_loaded = some false) :=
  ⟨rfl, rfl, rfl⟩

/-- C3 amended: when the servers list splits as `pre ++ [u] ++ post` with
every server of `pre` recognized and `u` unknown, `load_tool_summaries`
returns the "server u not recognized" error; `ActiveSet`, the registry and
every server's `active_tools` are unchanged, and the servers from `u` on
(anything outside `pre`) keep their state, but each recognized server in
`pre` has already had `summaries_loaded` set to true before the error
return. -/
theorem C3_prefix_mutation (st : StateB) (pre : List String) (u : String)
    (post : List String)
    (hpre : ∀ s ∈ pre, (dictGet st.servers s).isSome)
    (hu : dictGet st.servers u = none) :
    ((loaderExecuteB st "load_tool_summaries" (some (pre ++ u :: post)) none none).1
      = "Error: server " ++ u ++ " not recognized") ∧
    ((loaderExecuteB st "load_tool_summaries"
        (some (pre ++ u :: post)) none none).2.active_tools = st.active_tools) ∧
    ((loaderExecuteB st "load_tool_summaries"
        (some (pre ++ u :: post)) none none).2.registry = st.registry) ∧
    (∀ s ∈ pre, (dictGet (loaderExecuteB st "load_tool_summaries"
        (some (pre ++ u :: post)) none none).2.servers s).map
        ServerState.summaries_loaded = some true) ∧
    (∀ x, x ∉ pre → dictGet (loaderExecuteB st "load_tool_summaries"
        (some (pre ++ u :: post)) none none).2.servers x = dictGet st.servers x) ∧
    (∀ x, (dictGet (loaderExecuteB st "load_tool_summaries"
        (some (pre ++ u :: post)) none none).2.servers x).map ServerState.active_tools
      = (dictGet st.servers x).map ServerState.active_tools) := by
  have hrun : loaderExecuteB st "load_tool_summaries" (some (pre ++ u :: post)) none none
      = summariesLoop st [] (pre ++ u :: post) := by
    unfold loaderExecuteB
    rw [if_pos rfl, if_neg (by simp)]
    rfl
  rw [hrun, summariesLoop_through pre st [] u post hpre hu]
  refine ⟨rfl, rfl, rfl, ?_, ?_, ?_⟩
  · intro s hs
    exact foldl_setSummariesLoaded_flag pre st.servers s hs (hpre s hs)
  · intro x hx
    exact foldl_setSummariesLoaded_notin pre st.servers x hx
  · intro x
    exact foldl_setSummariesLoaded_active_tools pre st.servers x

/-- Witness for the amended C3 at the concrete scenario of the
counterexample: pre = ["github"], unknown server "figma". -/
theorem C3_witness :
    ((loaderExecuteB stC5 "load_tool_summaries" (some ["github", "figma"]) none none).2.active_tools
      = stC5.active_tools) ∧
    ((dictGet (loaderExecuteB stC5 "load_tool_summaries"
        (some ["github", "figma"]) none none).2.servers "github").map
        ServerState.active_tools = (dictGet stC5.servers "github").map
        ServerState.active_tools) := by
  have h := C3_prefix_mutation stC5 ["github"] "figma" []
    (by intro s hs; rw [List.mem_singleton] at hs; subst hs; rfl) rfl
  exact ⟨h.2.1, h.2.2.2.2.2 "github"⟩

/-! ### C7 — provider initialization failures are isolated -/

theorem registerProviderTools_isSome_preserve (ts : List ToolDef)
    (r : List (String × ToolB)) (s m : String) (h : (dictGet r m).isSome) :
    (dictGet (registerProviderTools r s ts) m).isSome := by
  unfold registerProviderTools
  induction ts generalizing r with
  | nil => exact h
  | cons d ts ih =>
      rw [List.foldl_cons]
      exact ih _ (isSome_dictGet_dictSet _ _ h)

theorem registerProviderTools_mem (ts : List ToolDef) (r : List (String × ToolB))
    (s : String) (d : ToolDef) (hd : d ∈ ts) :
    (dictGet (registerProviderTools r s ts) d.name).isSome := by
  induction ts generalizing r with
  | nil => cases hd
  | cons e ts ih =>
      rcases List.mem_cons.mp hd with hde | hmem
      · subst hde
        exact registerProviderTools_isSome_preserve ts _ s d.name
          (by rw [dictGet_dictSet_self]; rfl)
      · exact ih _ hmem

theorem load_mcp_tools_cons (q : ProviderSpec) (providers : List ProviderSpec)
    (st : StateB) :
    load_mcp_tools (q :: providers) st = load_mcp_tools providers
      (match q.outcome with
       | ProviderOutcome.initFailure => st
       | ProviderOutcome.listToolsFailure => st
       | ProviderOutcome.success tools =>
           { st with
             registry := registerProviderTools st.registry q.name tools,
             managers := dictSet st.managers q.name (tools.map ToolDef.name),
             servers := dictSet st.servers q.name ⟨true, false, []⟩ }) := rfl

theorem load_mcp_tools_registry_isSome_preserve (providers : List ProviderSpec)
    (st : StateB) (m : String) (h : (dictGet st.registry m).isSome) :
    (dictGet (load_mcp_tools providers st).registry m).isSome := by
  induction providers generalizing st with
  | nil => exact h
  | cons q providers ih =>
      rw [load_mcp_tools_cons]
      cases hq : q.outcome with
      | initFailure => exact ih st h
      | listToolsFailure => exact ih st h
      | success ts =>
          exact ih _ (registerProviderTools_isSome_preserve ts _ _ _ h)

theorem load_mcp_tools_registers (providers : List ProviderSpec) (st : StateB)
    (p : ProviderSpec) (hp : p ∈ providers) (ts : List ToolDef)
    (hout : p.outcome = ProviderOutcome.success ts) (d : ToolDef) (hd : d ∈ ts) :
    (dictGet (load_mcp_tools providers st).registry d.name).isSome := by
  induction providers generalizing st with
  | nil => cases hp
  | cons q providers ih =>
      rcases List.mem_cons.mp hp with hpq | hmem
      · subst hpq
        rw [load_mcp_tools_cons, hout]
        exact load_mcp_tools_registry_isSome_preserve providers _ d.name
          (registerProviderTools_mem ts st.registry _ d hd)
      · rw [load_mcp_tools_cons]
        cases hq : q.outcome with
        | initFailure => exact ih st hmem
        | listToolsFailure => exact ih st hmem
        | success ts2 => exact ih _ hmem

theorem load_mcp_tools_failed_absent (providers : List ProviderSpec) (st : StateB)
    (name : String) (hs : dictGet st.servers name = none)
    (hm : dictGet st.managers name = none)
    (hall : ∀ p ∈ providers, p.name = name →
      p.outcome = ProviderOutcome.initFailure ∨
      p.outcome = ProviderOutcome.listToolsFailure) :
    dictGet (load_mcp_tools providers st).servers name = none ∧
    dictGet (load_mcp_tools providers st).managers name = none := by
  induction providers generalizing st with
  | nil => exact ⟨hs, hm⟩
  | cons q providers ih =>
      have hall2 : ∀ p ∈ providers, p.name = name →
          p.outcome = ProviderOutcome.initFailure ∨
          p.outcome = ProviderOutcome.listToolsFailure :=
        fun p hp => hall p (List.mem_cons_of_mem _ hp)
      cases hq : q.outcome with
      | initFailure =>
          rw [load_mcp_tools_cons, hq]
          exact ih st hs hm hall2
      | listToolsFailure =>
          rw [load_mcp_tools_cons, hq]
          exact ih st hs hm hall2
      | success ts =>
          have hne : q.name ≠ name := fun hh =>
            by rcases hall q (List.mem_cons_self _ _) hh with h2 | h2 <;>
              rw [hq] at h2 <;> cases h2
          rw [load_mcp_tools_cons, hq]
          exact ih _
            (by rw [dictGet_dictSet_ne _ _ _ _ (Ne.symm hne)]; exact hs)
            (by rw [dictGet_dictSet_ne _ _ _ _ (Ne.symm hne)]; exact hm)
            hall2

/-- C7: provider initialization failures are isolated.  Running
`load_mcp_tools` over any list of providers with distinct names (as the
`MCP_SERVERS` dict guarantees) always completes; every tool enumerated by a
fully successful provider ends up registered in `TOOL_REGISTRY`, and a
provider whose `initialize` or `list_tools` step fails contributes no
`LOADER_STATE` entry and no manager, so it is excluded from later
disclosure. -/
theorem C7_provider_isolation (providers : List ProviderSpec)
    (hnodup : (providers.map ProviderSpec.name).Nodup) :
    (∀ p ∈ providers, ∀ ts, p.outcome = ProviderOutcome.success ts →
      ∀ d ∈ ts, (dictGet (load_mcp_tools providers emptyStateB).registry d.name).isSome) ∧
    (∀ p ∈ providers,
      (p.outcome = ProviderOutcome.initFailure ∨
       p.outcome = ProviderOutcome.listToolsFailure) →
      dictGet (load_mcp_tools providers emptyStateB).servers p.name = none ∧
      dictGet (load_mcp_tools providers emptyStateB).managers p.name = none) := by
  constructor
  · intro p hp ts hout d hd
    exact load_mcp_tools_registers providers emptyStateB p hp ts hout d hd
  · intro p hp hfail
    refine load_mcp_tools_failed_absent providers emptyStateB p.name rfl rfl ?_
    intro q hq hname
    have hqp : q = p := List.inj_on_of_nodup_map hnodup hq hp hname
    rw [hqp]
    exact hfail

def providersC7 : List ProviderSpec :=
  [⟨"github", ProviderOutcome.initFailure⟩,
   ⟨"figma", ProviderOutcome.success [⟨"get_file", "Get a Figma file by key."⟩]⟩]

/-- Witness for C7: with a failing `github` provider listed before a
succeeding `figma` provider, figma's tool is registered while github has no
loader state entry and no manager. -/
theorem C7_witness :
    ((providersC7.map ProviderSpec.name).Nodup) ∧
    ((dictGet (load_mcp_tools providersC7 emptyStateB).registry "get_file").isSome = true) ∧
    (dictGet (load_mcp_tools providersC7 emptyStateB).servers "github" = none) ∧
    (dictGet (load_mcp_tools providersC7 emptyStateB).managers "github" = none) := by
  have hnd : (providersC7.map ProviderSpec.name).Nodup := by decide
  have h := C7_provider_isolation providersC7 hnd
  refine ⟨hnd, ?_, ?_, ?_⟩
  · exact h.1 ⟨"figma", ProviderOutcome.success [⟨"get_file", "Get a Figma file by key."⟩]⟩
      (by decide) [⟨"get_file", "Get a Figma file by key."⟩] rfl
      ⟨"get_file", "Get a Figma file by key."⟩ (by decide)
  · exact (h.2 ⟨"github", ProviderOutcome.initFailure⟩ (by decide) (Or.inl rfl)).1
  · exact (h.2 ⟨"github", ProviderOutcome.initFailure⟩ (by decide) (Or.inl rfl)).2

/-! ### C8 — no operation ever removes an ActiveSet entry -/

theorem loaderStepA_active_extends (briefs : List (String × String))
    (registry : List (String × ToolA)) (active_tool_names : List String)
    (acc : LoopAccA) (name : String) :
    ∃ ext, (loaderStepA briefs registry active_tool_names acc name).active_tools
      = acc.active_tools ++ ext := by
  unfold loaderStepA
  split
  · exact ⟨[], (List.append_nil _).symm⟩
  split
  · exact ⟨[], (List.append_nil _).symm⟩
  split
  · exact ⟨_, rfl⟩
  · exact ⟨[], (List.append_nil _).symm⟩

theorem foldl_loaderStepA_active_extends (briefs : List (String × String))
    (registry : List (String × ToolA)) (active_tool_names : List String)
    (tool_names : List String) (acc : LoopAccA) :
    ∃ ext, (tool_names.foldl (loaderStepA briefs registry active_tool_names) acc).active_tools
      = acc.active_tools ++ ext := by
  induction tool_names generalizing acc with
  | nil => exact ⟨[], (List.append_nil _).symm⟩
  | cons n ns ih =>
      rw [List.foldl_cons]
      obtain ⟨e1, he1⟩ := loaderStepA_active_extends briefs registry active_tool_names acc n
      obtain ⟨e2, he2⟩ := ih (loaderStepA briefs registry active_tool_names acc n)
      exact ⟨e1 ++ e2, by rw [he2, he1, List.append_assoc]⟩

theorem loaderExecuteA_active_extends (briefs : List (String × String)) (st : StateA)
    (arg : PyArg) :
    ∃ ext, (loaderExecuteA briefs st arg).2.active_tools = st.active_tools ++ ext := by
  cases arg with
  | nonList => exact ⟨[], (List.append_nil _).symm⟩
  | list names =>
      exact foldl_loaderStepA_active_extends briefs st.registry
        (st.active_tools.map ToolDef.name) names ⟨[], [], [], st.active_tools⟩

theorem summariesLoop_active (l : List String) (st : StateB) (act : List String) :
    (summariesLoop st act l).2.active_tools = st.active_tools := by
  induction l generalizing st act with
  | nil => rfl
  | cons s rest ih =>
      rw [summariesLoop]
      split
      · rfl
      · exact ih _ _

theorem loadToolsStep_active_extends (registry : List (String × ToolB)) (server : String)
    (active_tool_names : List String) (acc : LoopAccB) (name : String) :
    ∃ ext, (loadToolsStep registry server active_tool_names acc name).active_tools
      = acc.active_tools ++ ext := by
  unfold loadToolsStep
  split
  · exact ⟨[], (List.append_nil _).symm⟩
  split
  · split
    · exact ⟨_, rfl⟩
    · exact ⟨[], (List.append_nil _).symm⟩
  · exact ⟨[], (List.append_nil _).symm⟩

theorem foldl_loadToolsStep_active_extends (registry : List (String × ToolB))
    (server : String) (active_tool_names : List String) (tools : List String)
    (acc : LoopAccB) :
    ∃ ext, (tools.foldl (loadToolsStep registry server active_tool_names) acc).active_tools
      = acc.active_tools ++ ext := by
  induction tools generalizing acc with
  | nil => exact ⟨[], (List.append_nil _).symm⟩
  | cons n ns ih =>
      rw [List.foldl_cons]
      obtain ⟨e1, he1⟩ := loadToolsStep_active_extends registry server active_tool_names acc n
      obtain ⟨e2, he2⟩ := ih (loadToolsStep registry server active_tool_names acc n)
      exact ⟨e1 ++ e2, by rw [he2, he1, List.append_assoc]⟩

theorem loaderExecuteB_active_extends (st : StateB) (action : String)
    (servers : Option (List String)) (tools : Option (List String))
    (server : Option String) :
    ∃ ext, (loaderExecuteB st action servers tools server).2.active_tools
      = st.active_tools ++ ext := by
  unfold loaderExecuteB
  split
  · split
    · exact ⟨[], (List.append_nil _).symm⟩
    · exact ⟨[], by rw [summariesLoop_active, List.append_nil]⟩
  split
  · split
    · exact ⟨[], (List.append_nil _).symm⟩
    split
    · exact ⟨[], (List.append_nil _).symm⟩
    split
    · exact ⟨[], (List.append_nil _).symm⟩
    · exact foldl_loadToolsStep_active_extends st.registry _ _ _ _
  · exact ⟨[], (List.append_nil _).symm⟩

theorem names_extends_of_extends {old new : List ToolDef}
    (h : ∃ ext, new = old ++ ext) :
    ∃ e, new.map ToolDef.name = old.map ToolDef.name ++ e := by
  obtain ⟨ext, he⟩ := h
  exact ⟨ext.map ToolDef.name, by rw [he, List.map_append]⟩

theorem refresh_active_names (st : StateB) :
    (refresh_loader_tool_description st).active_tools.map ToolDef.name
      = st.active_tools.map ToolDef.name := by
  unfold refresh_loader_tool_description
  rw [List.map_map]
  apply List.map_congr_left
  intro d _
  by_cases h : d.name = "loader" <;> simp [Function.comp, h]

theorem dispatchA_active_extends (briefs : List (String × String)) (st : StateA)
    (funcName : String) (la : PyArg) (ra : String) :
    ∃ ext, (dispatchA briefs st funcName la ra).2.active_tools
      = st.active_tools ++ ext := by
  unfold dispatchA
  split
  · exact loaderExecuteA_active_extends briefs st la
  · split
    · exact ⟨[], (List.append_nil _).symm⟩
    · exact ⟨[], (List.append_nil _).symm⟩

theorem dispatchB_active_names_extends (st : StateB) (funcName : String)
    (la : LoaderArgsB) (ra : String) :
    ∃ e, (dispatchB st funcName la ra).2.active_tools.map ToolDef.name
      = st.active_tools.map ToolDef.name ++ e := by
  unfold dispatchB
  split
  · rw [refresh_active_names]
    exact names_extends_of_extends
      (loaderExecuteB_active_extends st la.action la.servers la.tools la.server)
  · split
    · exact ⟨[], (List.append_nil _).symm⟩
    · exact ⟨[], (List.append_nil _).symm⟩

/-- C8: ActiveSet entries are never removed.  Every loader operation and every
dispatch, in both modes, only ever extends the name sequence of
`active_tools` on the right; consequently any entry present beforehand — in
particular the loader meta-tool added at conversation start — is still
present afterwards. -/
theorem C8_loader_never_removed :
    (∀ (briefs : List (String × String)) (st : StateA) (arg : PyArg),
      ∃ e, (loaderExecuteA briefs st arg).2.active_tools.map ToolDef.name
        = st.active_tools.map ToolDef.name ++ e) ∧
    (∀ (st : StateB) (action : String) (servers : Option (List String))
        (tools : Option (List String)) (server : Option String),
      ∃ e, (loaderExecuteB st action servers tools server).2.active_tools.map ToolDef.name
        = st.active_tools.map ToolDef.name ++ e) ∧
    (∀ (briefs : List (String × String)) (st : StateA) (funcName : String)
        (la : PyArg) (ra : String),
      ∃ e, (dispatchA briefs st funcName la ra).2.active_tools.map ToolDef.name
        = st.active_tools.map ToolDef.name ++ e) ∧
    (∀ (st : StateB) (funcName : String) (la : LoaderArgsB) (ra : String),
      ∃ e, (dispatchB st funcName la ra).2.active_tools.map ToolDef.name
        = st.active_tools.map ToolDef.name ++ e) ∧
    (∀ (briefs : List (String × String)) (st : StateA) (arg : PyArg),
      "loader" ∈ st.active_tools.map ToolDef.name →
      "loader" ∈ (loaderExecuteA briefs st arg).2.active_tools.map ToolDef.name) ∧
    (∀ (st : StateB) (funcName : String) (la : LoaderArgsB) (ra : String),
      "loader" ∈ st.active_tools.map ToolDef.name →
      "loader" ∈ (dispatchB st funcName la ra).2.active_tools.map ToolDef.name) := by
  refine ⟨?_, ?_, ?_, ?_, ?_, ?_⟩
  · intro briefs st arg
    exact names_extends_of_extends (loaderExecuteA_active_extends briefs st arg)
  · intro st action servers tools server
    exact names_extends_of_extends
      (loaderExecuteB_active_extends st action servers tools server)
  · intro briefs st funcName la ra
    exact names_extends_of_extends (dispatchA_active_extends briefs st funcName la ra)
  · intro st funcName la ra
    exact dispatchB_active_names_extends st funcName la ra
  · intro briefs st arg hmem
    obtain ⟨e, he⟩ := names_extends_of_extends (loaderExecuteA_active_extends briefs st arg)
    rw [he]
    exact List.mem_append_left _ hmem
  · intro st funcName la ra hmem
    obtain ⟨e, he⟩ := dispatchB_active_names_extends st funcName la ra
    rw [he]
    exact List.mem_append_left _ hmem

/-- Witness for C8: a concrete Mode B dispatch of a loader call on a state
whose ActiveSet holds the loader keeps the loader present, and a concrete
Mode A activation keeps it present too. -/
theorem C8_witness :
    ("loader" ∈ stC1A.active_tools.map ToolDef.name) ∧
    ("loader" ∈ (loaderExecuteA briefsC1 stC1A
        (PyArg.list ["calculator"])).2.active_tools.map ToolDef.name) ∧
    ("loader" ∈ (dispatchB stC1B "loader"
        ⟨"load_tools", none, some ["get_me"], some "github"⟩
        "").2.active_tools.map ToolDef.name) := by
  have h1 : "loader" ∈ stC1A.active_tools.map ToolDef.name := by decide
  have h2 := C8_loader_never_removed.2.2.2.2.1 briefsC1 stC1A
    (PyArg.list ["calculator"]) h1
  have h3 := C8_loader_never_removed.2.2.2.2.2 stC1B "loader"
    ⟨"load_tools", none, some ["get_me"], some "github"⟩ ""
    (by decide)
  exact ⟨h1, h2, h3⟩

/-! ### C6 — names unknown to the catalogue fail without mutation -/

/-- The registry invariant established by `Tool.__init__` in both modules:
every binding is keyed by its own definition name. -/
def WFRegistryA (registry : List (String × ToolA)) : Prop :=
  ∀ p ∈ registry, p.2.definition.name = p.1

/-- The same invariant for the Mode B registry. -/
def WFRegistryB (registry : List (String × ToolB)) : Prop :=
  ∀ p ∈ registry, p.2.definition.name = p.1

theorem loaderStepA_failed_mono (briefs : List (String × String))
    (registry : List (String × ToolA)) (active_tool_names : List String)
    (acc : LoopAccA) (m x : String) (h : x ∈ acc.failed) :
    x ∈ (loaderStepA briefs registry active_tool_names acc m).failed := by
  unfold loaderStepA
  split
  · exact h
  split
  · exact List.mem_append_left _ h
  split
  · exact h
  · exact List.mem_append_left _ h

theorem foldl_loaderStepA_failed_mono (briefs : List (String × String))
    (registry : List (String × ToolA)) (active_tool_names : List String)
    (names : List String) (acc : LoopAccA) (x : String) (h : x ∈ acc.failed) :
    x ∈ (names.foldl (loaderStepA briefs registry active_tool_names) acc).failed := by
  induction names generalizing acc with
  | nil => exact h
  | cons m ms ih =>
      rw [List.foldl_cons]
      exact ih _ (loaderStepA_failed_mono briefs registry active_tool_names acc m x h)

theorem foldl_loaderStepA_failed_mem (briefs : List (String × String))
    (registry : List (String × ToolA)) (active_tool_names : List String)
    (names : List String) (acc : LoopAccA) (n : String) (hn : n ∈ names)
    (hna : n ∉ active_tool_names) (hnb : dictGet briefs n = none) :
    n ∈ (names.foldl (loaderStepA briefs registry active_tool_names) acc).failed := by
  induction names generalizing acc with
  | nil => cases hn
  | cons m ms ih =>
      rw [List.foldl_cons]
      rcases List.mem_cons.mp hn with hnm | hmem
      · subst hnm
        refine foldl_loaderStepA_failed_mono briefs registry active_tool_names ms _ n ?_
        unfold loaderStepA
        rw [if_neg hna, if_pos (by rw [hnb]; rfl)]
        exact List.mem_append_right _ (List.mem_singleton.mpr rfl)
      · exact ih _ hmem

theorem loaderStepA_count (briefs : List (String × String))
    (registry : List (String × ToolA)) (active_tool_names : List String)
    (acc : LoopAccA) (m n : String) (hwf : WFRegistryA registry)
    (hnb : dictGet briefs n = none) :
    ((loaderStepA briefs registry active_tool_names acc m).active_tools.map
      ToolDef.name).count n = (acc.active_tools.map ToolDef.name).count n := by
  unfold loaderStepA
  split
  · rfl
  split
  · rfl
  · next hbrief =>
      split
      · next tool heq =>
          have hm : tool.definition.name = m := hwf _ (dictGet_mem heq)
          have hmn : ¬(m = n) := by
            intro hh
            subst hh
            rw [hnb] at hbrief
            exact hbrief rfl
          simp [List.count_append, List.count_cons, hm, hmn]
      · rfl

theorem foldl_loaderStepA_count (briefs : List (String × String))
    (registry : List (String × ToolA)) (active_tool_names : List String)
    (names : List String) (acc : LoopAccA) (n : String) (hwf : WFRegistryA registry)
    (hnb : dictGet briefs n = none) :
    (((names.foldl (loaderStepA briefs registry active_tool_names) acc).active_tools.map
      ToolDef.name).count n) = (acc.active_tools.map ToolDef.name).count n := by
  induction names generalizing acc with
  | nil => rfl
  | cons m ms ih =>
      rw [List.foldl_cons]
      exact (ih _).trans
        (loaderStepA_count briefs registry active_tool_names acc m n hwf hnb)

theorem loadToolsStep_failed_mono (registry : List (String × ToolB)) (server : String)
    (active_tool_names : List String) (acc : LoopAccB) (m x : String)
    (h : x ∈ acc.failed) :
    x ∈ (loadToolsStep registry server active_tool_names acc m).failed := by
  unfold loadToolsStep
  split
  · exact h
  split
  · split
    · exact h
    · exact List.mem_append_left _ h
  · exact List.mem_append_left _ h

theorem foldl_loadToolsStep_failed_mono (registry : List (String × ToolB))
    (server : String) (active_tool_names : List String) (tools : List String)
    (acc : LoopAccB) (x : String) (h : x ∈ acc.failed) :
    x ∈ (tools.foldl (loadToolsStep registry server active_tool_names) acc).failed := by
  induction tools generalizing acc with
  | nil => exact h
  | cons m ms ih =>
      rw [List.foldl_cons]
      exact ih _ (loadToolsStep_failed_mono registry server active_tool_names acc m x h)

theorem foldl_loadToolsStep_failed_mem (registry : List (String × ToolB))
    (server : String) (active_tool_names : List String) (tools : List String)
    (acc : LoopAccB) (n : String) (hn : n ∈ tools) (hna : n ∉ active_tool_names)
    (hreg : ∀ ti, dictGet registry n = some ti → ti.server ≠ some server) :
    n ∈ (tools.foldl (loadToolsStep registry server active_tool_names) acc).failed := by
  induction tools generalizing acc with
  | nil => cases hn
  | cons m ms ih =>
      rw [List.foldl_cons]
      rcases List.mem_cons.mp hn with hnm | hmem
      · subst hnm
        refine foldl_loadToolsStep_failed_mono registry server active_tool_names ms _ n ?_
        have hstep : loadToolsStep registry server active_tool_names acc n
            = { acc with failed := acc.failed ++ [n] } := by
          unfold loadToolsStep
          rw [if_neg hna]
          cases hc : dictGet registry n with
          | none => rfl
          | some ti => exact if_neg (hreg ti hc)
        rw [hstep]
        exact List.mem_append_right _ (List.mem_singleton.mpr rfl)
      · exact ih _ hmem

theorem loadToolsStep_count (registry : List (String × ToolB)) (server : String)
    (active_tool_names : List String) (acc : LoopAccB) (m n : String)
    (hwf : WFRegistryB registry)
    (hreg : ∀ ti, dictGet registry n = some ti → ti.server ≠ some server) :
    ((loadToolsStep registry server active_tool_names acc m).active_tools.map
      ToolDef.name).count n = (acc.active_tools.map ToolDef.name).count n := by
  unfold loadToolsStep
  split
  · rfl
  split
  · next ti heq =>
      split
      · next hserver =>
          have hm : ti.definition.name = m := hwf _ (dictGet_mem heq)
          have hmn : ¬(m = n) := by
            intro hh
            subst hh
            exact hreg ti heq hserver
          simp [List.count_append, List.count_cons, hm, hmn]
      · rfl
  · rfl

theorem foldl_loadToolsStep_count (registry : List (String × ToolB)) (server : String)
    (active_tool_names : List String) (tools : List String) (acc : LoopAccB)
    (n : String) (hwf : WFRegistryB registry)
    (hreg : ∀ ti, dictGet registry n = some ti → ti.server ≠ some server) :
    (((tools.foldl (loadToolsStep registry server active_tool_names) acc).active_tools.map
      ToolDef.name).count n) = (acc.active_tools.map ToolDef.name).count n := by
  induction tools generalizing acc with
  | nil => rfl
  | cons m ms ih =>
      rw [List.foldl_cons]
      exact (ih _).trans
        (loadToolsStep_count registry server active_tool_names acc m n hwf hreg)

/-- C6: a name unknown to the catalogue — absent from the brief dict in
Mode A, or not a tool of the requested server in Mode B — is reported in the
`failed` list of the activation loop and contributes no mutation to the
ActiveSet (its occurrence count among the active names is unchanged), while
the call still returns the aggregated textual report built from the loop
lists; activation never raises, being a total function of the inputs. -/
theorem C6_unknown_name_failed :
    (∀ (briefs : List (String × String)) (st : StateA) (names : List String)
        (n : String), WFRegistryA st.registry → n ∈ names →
        n ∉ st.active_tools.map ToolDef.name → dictGet briefs n = none →
      (n ∈ (loaderLoopA briefs st.registry (st.active_tools.map ToolDef.name)
        st.active_tools names).failed) ∧
      (((loaderExecuteA briefs st (PyArg.list names)).2.active_tools.map
        ToolDef.name).count n = (st.active_tools.map ToolDef.name).count n) ∧
      ((loaderExecuteA briefs st (PyArg.list names)).1
        = loaderResponseA (loaderLoopA briefs st.registry
            (st.active_tools.map ToolDef.name) st.active_tools names))) ∧
    (∀ (st : StateB) (srvs : Option (List String)) (ts : List String)
        (sv : String) (n : String), WFRegistryB st.registry →
        sv ≠ "" → n ∈ ts → n ∉ st.active_tools.map ToolDef.name →
        (dictGet st.servers sv).map ServerState.summaries_loaded = some true →
        (dictGet st.managers sv).isSome →
        (∀ ti, dictGet st.registry n = some ti → ti.server ≠ some sv) →
      (n ∈ (loaderLoopB st.registry sv (st.active_tools.map ToolDef.name)
        st.active_tools st.servers ts).failed) ∧
      (((loaderExecuteB st "load_tools" srvs (some ts) (some sv)).2.active_tools.map
        ToolDef.name).count n = (st.active_tools.map ToolDef.name).count n)) := by
  constructor
  · intro briefs st names n hwf hn hna hnb
    refine ⟨?_, ?_, rfl⟩
    · exact foldl_loaderStepA_failed_mem briefs st.registry _ names _ n hn hna hnb
    · exact foldl_loaderStepA_count briefs st.registry _ names _ n hwf hnb
  · intro st srvs ts sv n hwf hsv hn hna hsum hman hreg
    have hts : ts ≠ [] := by
      intro hh
      subst hh
      cases hn
    have hrun : loaderExecuteB st "load_tools" srvs (some ts) (some sv)
        = loadToolsFinish st sv ts := by
      obtain ⟨mts, hmts⟩ := Option.isSome_iff_exists.mp hman
      unfold loaderExecuteB
      rw [if_neg (by decide : ¬("load_tools" = "load_tool_summaries")),
        if_pos (rfl : ("load_tools" : String) = "load_tools"),
        if_neg (by simp [hts, hsv])]
      rw [if_neg (by simpa using hsum)]
      have hmts2 : dictGet st.managers ((some sv).getD "") = some mts := hmts
      rw [hmts2]
      rfl
    refine ⟨?_, ?_⟩
    · exact foldl_loadToolsStep_failed_mem st.registry sv _ ts _ n hn hna hreg
    · rw [hrun]
      exact foldl_loadToolsStep_count st.registry sv _ ts _ n hwf hreg

def loaderToolA : ToolA :=
  ⟨loaderDefA, fun _ => ""⟩

def stE2E : StateA :=
  ⟨[("calculator", calculatorToolA), ("get_weather", weatherToolA),
    ("loader", loaderToolA)], [loaderDefA]⟩

def briefsE2E : List (String × String) :=
  [("calculator", "Performs mathematical calculations."),
   ("get_weather", "Gets the current weather for a location.")]

/-- Witness for C6 at the spec's end-to-end scenarios: in Mode A with
`{calculator, get_weather}` registered, `activate(["calculator","bogus"])`
reports `bogus` failed and yields ActiveSet `[loader, calculator]`; in Mode B
a name not belonging to the requested server fails and mutates nothing. -/
theorem C6_witness :
    ("bogus" ∈ (loaderLoopA briefsE2E stE2E.registry
        (stE2E.active_tools.map ToolDef.name) stE2E.active_tools
        ["calculator", "bogus"]).failed) ∧
    ((loaderExecuteA briefsE2E stE2E
        (PyArg.list ["calculator", "bogus"])).2.active_tools.map ToolDef.name
      = ["loader", "calculator"]) ∧
    ((loaderExecuteA briefsE2E stE2E (PyArg.list ["calculator", "bogus"])).1
      = "Activated tools: calculator. Failed to activate: bogus. They are now available for use in the next message.") ∧
    ("bogus" ∈ (loaderLoopB stC1B.registry "github"
        (stC1B.active_tools.map ToolDef.name) stC1B.active_tools stC1B.servers
        ["get_me", "bogus"]).failed) ∧
    (((loaderExecuteB stC1B "load_tools" none (some ["get_me", "bogus"])
        (some "github")).2.active_tools.map ToolDef.name).count "bogus"
      = (stC1B.active_tools.map ToolDef.name).count "bogus") := by
  have hwfA : WFRegistryA stE2E.registry := by
    intro p hp
    fin_cases hp
    all_goals rfl
  have hA := C6_unknown_name_failed.1 briefsE2E stE2E ["calculator", "bogus"] "bogus"
    hwfA (by decide) (by decide) rfl
  have hwfB : WFRegistryB stC1B.registry := by
    intro p hp
    fin_cases hp
    all_goals rfl
  have hB := C6_unknown_name_failed.2 stC1B none ["get_me", "bogus"] "github" "bogus"
    hwfB (by decide) (by decide) (by decide) rfl rfl
    (by intro ti h; cases h)
  exact ⟨hA.1, rfl, rfl, hB.1, hB.2⟩

end DCL
